import Mathlib

/-!
Shallow embedding of `src/LR.py` (class `LogisticRegressionPortfolioOptimizer`):
feature/label construction (`preprocess_data`), per-asset training
(`train_models`) and the sequential allocation-prediction walk
(`predict_daily_allocations`).  Prices are rationals; a missing DataFrame cell
(NaN) is `none`.  Trading dates are the row indices `0, 1, ...` of the loaded
table.
-/

namespace LR

/-- One optional closing price per trading date of the loaded table; `none`
models a NaN cell in the DataFrame column. -/
abbrev PriceSeries := List (Option ℚ)

/-- The loaded table `self.data`: a common date index of `nRows` trading dates
and one closing-price column per ticker. -/
structure PriceTable where
  nRows : Nat
  close : List (String × PriceSeries)
deriving Repr

/-- The closing-price column of one ticker; an absent column reads as empty. -/
def seriesOf (tab : PriceTable) (t : String) : PriceSeries :=
  (tab.close.lookup t).getD []

/-- Cell of a ticker's column at a date index; out-of-range reads are missing. -/
def cellOf (tab : PriceTable) (t : String) (d : Nat) : Option ℚ :=
  (seriesOf tab t).getD d none

/-- `Series.pct_change()` on a closing-price column (LR.py lines 51 and 107):
entry `0` is NaN, entry `t` is `(p t - p (t-1)) / p (t-1)`, NaN when either
price is missing (a gap is treated as an undefined return). -/
def pctChange (ps : PriceSeries) : List (Option ℚ) :=
  (List.range ps.length).map fun t =>
    if t = 0 then none
    else
      match ps.getD (t - 1) none, ps.getD t none with
      | some a, some b => some ((b - a) / a)
      | _, _ => none

/-- `(daily_returns > 0).astype(int)` (LR.py line 54): `NaN > 0` is False in
pandas, so an undefined return labels as 0. -/
def outcomes (rets : List (Option ℚ)) : List ℕ :=
  rets.map fun r =>
    match r with
    | some x => if 0 < x then 1 else 0
    | none => 0

/-- `daily_returns.shift(1).fillna(0)` (LR.py line 57): feature `t` is return
`t-1`, with the shifted-in NaN at index 0 and every undefined return replaced
by 0. -/
def shiftFillZero (rets : List (Option ℚ)) : List ℚ :=
  (List.range rets.length).map fun t =>
    if t = 0 then 0
    else (rets.getD (t - 1) none).getD 0

deriving instance DecidableEq for Except

/-- Per-asset result of `preprocess_data` (LR.py lines 43-59). -/
structure Prep where
  features : List ℚ
  labels : List ℕ
deriving Repr, DecidableEq

/-- `preprocess_data` restricted to one asset's column; the pandas computation
is columnwise, so the per-asset view loses nothing. -/
def preprocessAsset (ps : PriceSeries) : Prep :=
  let rets := pctChange ps
  { features := shiftFillZero rets, labels := outcomes rets }

/-- State of a fitted `StandardScaler` on the 1-D feature column.  `mean` is
the exact training mean; `scale` models `scale_`.  sklearn's `scale_` is the
standard deviation (1 when the variance is 0); the square root has no rational
value, so `scale` is kept as a deterministic rational surrogate of it computed
by `fitScaler` — every claim below depends only on the statistics being a
deterministic function of the data the scaler was fit on. -/
structure Scaler where
  mean : ℚ
  scale : ℚ
deriving Repr, DecidableEq

/-- `StandardScaler.transform` on a single 1-D value: `(x - mean_) / scale_`. -/
def Scaler.transform (s : Scaler) (x : ℚ) : ℚ :=
  (x - s.mean) / s.scale

/-- Parameters of a fitted `LogisticRegression` on the 1-D scaled feature. -/
structure Classifier where
  coef : ℚ
  intercept : ℚ
deriving Repr, DecidableEq

/-- Binary prediction of a fitted `LogisticRegression`: class 1 exactly when
the decision function `coef_ * x + intercept_` is positive. -/
def Classifier.predict (c : Classifier) (x : ℚ) : ℕ :=
  if 0 < c.coef * x + c.intercept then 1 else 0

/-- `self.models[ticker] = (model, scaler)` (LR.py line 88). -/
abbrev AssetModel := Classifier × Scaler

/-- A 32-bit linear congruential step, driving the deterministic shuffle. -/
def lcg (s : Nat) : Nat :=
  (1664525 * s + 1013904223) % 4294967296

/-- Fisher-Yates style selection driven by `lcg`, with fuel for termination. -/
def shuffleAux : Nat → Nat → List Nat → List Nat
  | 0, _, _ => []
  | _ + 1, _, [] => []
  | fuel + 1, s, x :: xs =>
    let l := x :: xs
    let i := s % l.length
    l.getD i 0 :: shuffleAux fuel (lcg s) (l.eraseIdx i)

/-- Deterministic model of `numpy.random.RandomState(seed).permutation n`, the
shuffle inside `train_test_split(..., random_state=seed)`.  The exact Mersenne
Twister ordering is immaterial to every claim below; what is kept faithful is
that the shuffle is a fixed deterministic function of the seed and the length.
-/
def permutation (seed n : Nat) : List Nat :=
  shuffleAux n seed (List.range n)

/-- `ceil(0.2 * n)`, the holdout size chosen by
`train_test_split(..., test_size=0.2)`. -/
def nTest (n : Nat) : Nat :=
  (n + 4) / 5

/-- Error kinds raised by sklearn during `train_models`; the Python code does
not catch them, so they abort the whole pass. -/
inductive FitError where
  /-- `train_test_split` ValueError: resulting train or test set is empty. -/
  | emptySplit : FitError
  /-- `LogisticRegression.fit` ValueError: needs samples of at least 2
  classes. -/
  | singleClass : FitError
deriving Repr, DecidableEq

/-- Outcome of `train_test_split(X, y, test_size=0.2, random_state=seed)`
(LR.py line 72): shuffle the row indices, take `ceil(0.2 n)` of them as the
holdout and the rest as the training partition. -/
structure SplitResult where
  trainIdx : List Nat
  testIdx : List Nat
  Xtrain : List ℚ
  Xtest : List ℚ
  ytrain : List ℕ
  ytest : List ℕ
deriving Repr, DecidableEq

/-- `train_test_split` itself; raises when the train or test side is empty
(which happens exactly when fewer than 2 samples exist). -/
def trainTestSplit (seed : Nat) (X : List ℚ) (y : List ℕ) :
    Except FitError SplitResult :=
  let n := X.length
  if nTest n = 0 ∨ n - nTest n = 0 then .error FitError.emptySplit
  else
    let perm := permutation seed n
    let testIdx := perm.take (nTest n)
    let trainIdx := perm.drop (nTest n)
    .ok
      { trainIdx := trainIdx
        testIdx := testIdx
        Xtrain := trainIdx.map fun i => X.getD i 0
        Xtest := testIdx.map fun i => X.getD i 0
        ytrain := trainIdx.map fun i => y.getD i 0
        ytest := testIdx.map fun i => y.getD i 0 }

/-- Mean of a rational list (0 on the empty list, matching `x/0 = 0` in ℚ). -/
def listMean (xs : List ℚ) : ℚ :=
  xs.sum / xs.length

/-- Population variance of a rational list. -/
def listVar (xs : List ℚ) : ℚ :=
  (xs.map fun x => (x - listMean xs) ^ 2).sum / xs.length

/-- `StandardScaler().fit` on the training features only (LR.py lines 75-76):
`mean_` is the exact mean; `scale_` is sklearn's standard deviation, kept here
as the rational surrogate `variance` (and 1 where the variance is 0, exactly
as sklearn sets `scale_ = 1` for a constant feature).  All claims below use
only that the statistics are a pure deterministic function of the fitted
data. -/
def fitScaler (xs : List ℚ) : Scaler :=
  let v := listVar xs
  { mean := listMean xs, scale := if v = 0 then 1 else v }

/-- `LogisticRegression().fit` on the scaled 1-D training data (LR.py lines
80-81).  Faithful parts: the ValueError when the training labels hold a single
class, and determinism.  The iterative LBFGS solver has no rational closed
form, so the fitted coefficient is modelled by the deterministic class-mean
difference surrogate; no claim below depends on the numeric coefficient
values. -/
def fitLogReg (X : List ℚ) (y : List ℕ) : Except FitError Classifier :=
  let pairs := X.zip y
  let pos := (pairs.filter fun p => p.2 == 1).map Prod.fst
  let neg := (pairs.filter fun p => p.2 != 1).map Prod.fst
  if pos.isEmpty ∨ neg.isEmpty then .error FitError.singleClass
  else
    let w := listMean pos - listMean neg
    .ok { coef := w, intercept := -(w * listMean X) }

/-- `accuracy_score(y_test, y_pred)` (LR.py line 85): fraction of exact
matches. -/
def accuracyScore (yTrue yPred : List ℕ) : ℚ :=
  (((yTrue.zip yPred).filter fun p => p.1 == p.2).length : ℚ) / (yTrue.length : ℚ)

/-- Everything the per-asset body of `train_models` (LR.py lines 67-88)
computes for one ticker: split, scaler fit on the training partition, holdout
transformed through that same scaler, classifier fit, holdout accuracy. -/
structure AssetFit where
  split : SplitResult
  scaler : Scaler
  clf : Classifier
  accuracy : ℚ
deriving Repr, DecidableEq

/-- The per-asset body of `train_models`: split, `scaler.fit_transform` on the
training features, `scaler.transform` on the holdout features, fit the
classifier on the scaled training data, predict the scaled holdout and score
it.  Any sklearn ValueError propagates. -/
def trainAsset (seed : Nat) (X : List ℚ) (y : List ℕ) :
    Except FitError AssetFit := do
  let sp ← trainTestSplit seed X y
  let scaler := fitScaler sp.Xtrain
  let XtestScaled := sp.Xtest.map scaler.transform
  let clf ← fitLogReg (sp.Xtrain.map scaler.transform) sp.ytrain
  let yPred := XtestScaled.map clf.predict
  return { split := sp, scaler := scaler, clf := clf
           accuracy := accuracyScore sp.ytest yPred }

/-- Observable effects of a `train_models` call: the mutated `self.models`
registry, the console lines `f'{ticker} Model Accuracy: {accuracy}'` (LR.py
line 86) as (ticker, accuracy) pairs, and the uncaught sklearn error that
aborted the pass, if any.  The Python function itself returns None. -/
structure TrainEffects where
  models : List (String × AssetModel)
  printed : List (String × ℚ)
  error : Option FitError
deriving Repr, DecidableEq

/-- The `for ticker in self.tickers` loop of `train_models` (LR.py lines
67-88).  There is no try/except in the source: the first sklearn error
returns immediately, keeping the registry entries and prints made so far and
leaving the remaining tickers unprocessed. -/
def trainGo (seed : Nat) (tab : PriceTable) :
    List String → TrainEffects → TrainEffects
  | [], acc => acc
  | t :: rest, acc =>
    let p := preprocessAsset (seriesOf tab t)
    match trainAsset seed p.features p.labels with
    | .error e => { models := acc.models, printed := acc.printed, error := some e }
    | .ok fit =>
      trainGo seed tab rest
        { models := acc.models ++ [(t, (fit.clf, fit.scaler))]
          printed := acc.printed ++ [(t, fit.accuracy)]
          error := none }

/-- `train_models` (LR.py lines 61-88).  The source hardcodes
`random_state=42`; the seed is a parameter here and every concrete run below
uses 42. -/
def train_models (seed : Nat) (tab : PriceTable) (tickers : List String) :
    TrainEffects :=
  trainGo seed tab tickers { models := [], printed := [], error := none }

/-- The value a call of `train_models` hands back to its caller: the function
is annotated `-> None` and has no return statement, so every call returns
None.  The registry and the accuracies reach the caller only through the
mutation of `self.models` and console printing, both modelled by
`TrainEffects`. -/
def train_models_return (_seed : Nat) (_tab : PriceTable)
    (_tickers : List String) : Unit :=
  ()

/-- `self.allocations`: ticker to list of emitted 0/1 decisions.  The Python
dict is keyed by `self.tickers`; it is modelled as a total function, read only
at those keys. -/
abbrev AllocTable := String → List ℕ

/-- `self.allocations = \x7bticker: [] for ticker in tickers\x7d` (LR.py line 37):
at construction every requested ticker starts with an empty decision list. -/
def initAllocations (_tickers : List String) : AllocTable :=
  fun _ => []

/-- The error `LogisticRegression.predict` raises when handed the NaN produced
by `pct_change()` at the first loaded date or at a data gap: sklearn validates
its input and rejects NaN. -/
inductive PredError where
  | nanInput : PredError
deriving Repr, DecidableEq

/-- `self.data['Close'].pct_change().loc[current_date][ticker]` (LR.py line
107): the return realized on date `d` for one ticker, recomputed from the full
loaded table.  Note the source applies no `fillna` here, unlike line 57. -/
def retAt (tab : PriceTable) (t : String) (d : Nat) : Option ℚ :=
  (pctChange (seriesOf tab t)).getD d none

/-- One decision (LR.py lines 111-114): scale the current-date return through
the asset's stored scaler, then take the classifier's binary prediction. -/
def decideOne (m : AssetModel) (r : ℚ) : ℕ :=
  m.1.predict (m.2.transform r)

/-- `fun t' => ...` append of one decision to one ticker's list (LR.py line
117). -/
def appendAlloc (a : AllocTable) (t : String) (v : ℕ) : AllocTable :=
  fun t' => if t' = t then a t' ++ [v] else a t'

/-- The inner `for ticker, (model, scaler) in self.models.items()` loop for a
fixed date (LR.py lines 109-117): each registered asset's current-date return
is scaled and classified and the decision appended.  An undefined return makes
`predict` raise, ending the call with the appends made so far kept. -/
def predictStep (tab : PriceTable) :
    List (String × AssetModel) → AllocTable → Nat → AllocTable × Option PredError
  | [], alloc, _ => (alloc, none)
  | p :: rest, alloc, d =>
    match retAt tab p.1 d with
    | none => (alloc, some PredError.nanInput)
    | some r => predictStep tab rest (appendAlloc alloc p.1 (decideOne p.2 r)) d

/-- The outer `for current_date in filtered_data.index[:-1]` loop (LR.py line
106), threading the allocation table through the dates in order and stopping
at the first uncaught sklearn error. -/
def predictLoop (tab : PriceTable) (models : List (String × AssetModel)) :
    List Nat → AllocTable → AllocTable × Option PredError
  | [], alloc => (alloc, none)
  | d :: ds, alloc =>
    match predictStep tab models alloc d with
    | (a, some e) => (a, some e)
    | (a, none) => predictLoop tab models ds a

/-- The dates the prediction loop walks: the loaded index restricted to
`start_date <= d <= end_date` (LR.py line 102) with the final in-range date
dropped (LR.py line 106). -/
def walkedDates (tab : PriceTable) (s e : Nat) : List Nat :=
  (((List.range tab.nRows).filter fun d => decide (s ≤ d) && decide (d ≤ e))).dropLast

/-- `predict_daily_allocations(start_date, end_date)` (LR.py lines 90-119)
over an explicit registry and allocation state: walks the in-range dates,
appending one decision per registered asset per walked date, and returns the
(also state-updating) allocation mapping together with the uncaught error, if
any. -/
def predict_daily_allocations (tab : PriceTable)
    (models : List (String × AssetModel)) (alloc : AllocTable) (s e : Nat) :
    AllocTable × Option PredError :=
  predictLoop tab models (walkedDates tab s e) alloc

/-- Ticker names used by the concrete runs below. -/
def tA : String := "A"

def tB : String := "B"

def tC : String := "C"

/-- The spec's concrete 5-day scenario: closes [100, 101, 99, 99, 102] for a
single asset on 5 consecutive trading days. -/
def tabC4 : PriceTable :=
  { nRows := 5
    close := [(tA, [some 100, some 101, some 99, some 99, some 102])] }

/-- An arbitrary trained asset model (identity scaler, positive-return
classifier) for concrete prediction runs whose claims do not depend on the
fitted values. -/
def mUnit : AssetModel :=
  ({ coef := 1, intercept := 0 }, { mean := 0, scale := 1 })

/-- A column with a single price observation in a 5-row table: every return is
undefined, so every label is 0 and the training labels hold a single class. -/
def prA : PriceSeries := [some 100, none, none, none, none]

/-- A well-behaved 5-day column whose training succeeds for any shuffle: the
labels alternate, so both classes appear in every 4-element training
partition. -/
def prB : PriceSeries := [some 100, some 102, some 98, some 103, some 97]

/-- A third, unremarkable column. -/
def prC : PriceSeries := [some 10, some 11, some 12, some 13, some 14]

/-- A 5-day column built so the single holdout sample is misclassified: its
training succeeds with holdout accuracy 0. -/
def prD : PriceSeries := [some 1000, some 1200, some 1140, some 1482, some 2223]

/-- Three-asset table for the training scenarios: asset A fails to fit
(single-class labels), assets B and C have full histories. -/
def tabTrain : PriceTable :=
  { nRows := 5, close := [(tA, prA), (tB, prB), (tC, prC)] }

/-- One-asset table whose training prints holdout accuracy 1. -/
def tabAcc1 : PriceTable :=
  { nRows := 5, close := [(tA, prB)] }

/-- One-asset table whose training prints holdout accuracy 0. -/
def tabAcc2 : PriceTable :=
  { nRows := 5, close := [(tA, prD)] }

/-- Two-asset table for concrete prediction runs. -/
def tabP : PriceTable :=
  { nRows := 3
    close := [(tA, [some 100, some 101, some 102]), (tB, [some 50, some 49, some 48])] }

/-- `tabP` with asset A's closing price on date 2 altered: it agrees with
`tabP` on every price dated at most 1. -/
def tabPalt : PriceTable :=
  { nRows := 3
    close := [(tA, [some 100, some 101, some 999]), (tB, [some 50, some 49, some 48])] }

/-- The value `trainAsset 42` computes on column `prB` (the per-asset training
body run on asset B of `tabTrain`), written out. -/
def fitB : AssetFit :=
  { split :=
      { trainIdx := [1, 3, 4, 0]
        testIdx := [2]
        Xtrain := [0, -2/51, 5/98, 0]
        Xtest := [1/50]
        ytrain := [1, 1, 0, 0]
        ytest := [0] }
    scaler := { mean := 59/19992, scale := 45587/44408896 }
    clf := { coef := -6010928/136761, intercept := 0 }
    accuracy := 1 }

/-! Helper lemmas. -/

theorem getD_map_range {α : Type} (f : Nat → α) (n d : Nat) (a : α)
    (h : d < n) : ((List.range n).map f).getD d a = f d := by
  rw [List.getD_eq_getElem _ _ (by simpa using h)]
  simp

theorem getD_map_range_ge {α : Type} (f : Nat → α) (n d : Nat) (a : α)
    (h : n ≤ d) : ((List.range n).map f).getD d a = a :=
  List.getD_eq_default _ _ (by simpa using h)

theorem length_pctChange (ps : PriceSeries) :
    (pctChange ps).length = ps.length := by
  simp [pctChange]

theorem length_shiftFillZero (rets : List (Option ℚ)) :
    (shiftFillZero rets).length = rets.length := by
  simp [shiftFillZero]

theorem length_outcomes (rets : List (Option ℚ)) :
    (outcomes rets).length = rets.length := by
  simp [outcomes]

/-! Claim C2. -/

/-- Claim C2: for every per-asset price series and in-range index `t`, the
feature series satisfies `feature 0 = 0` and `feature t = return (t-1)` for
`t ≥ 1`, an undefined predecessor return mapping to 0; and the label series is
0/1-valued with `label t = 1` exactly when return `t` is defined and strictly
positive. -/
theorem claim_C2_feature_label_law (ps : PriceSeries) (t : Nat)
    (ht : t < ps.length) :
    ((preprocessAsset ps).features.getD t 0 =
        if t = 0 then 0 else ((pctChange ps).getD (t - 1) none).getD 0)
    ∧ ((preprocessAsset ps).labels.getD t 0 = 0 ∨
        (preprocessAsset ps).labels.getD t 0 = 1)
    ∧ ((preprocessAsset ps).labels.getD t 0 = 1 ↔
        ∃ r, (pctChange ps).getD t none = some r ∧ 0 < r) := by
  have hlen : t < (pctChange ps).length := by rw [length_pctChange]; exact ht
  have hfeat : (preprocessAsset ps).features.getD t 0 =
      if t = 0 then 0 else ((pctChange ps).getD (t - 1) none).getD 0 := by
    show (shiftFillZero (pctChange ps)).getD t 0 = _
    unfold shiftFillZero
    rw [getD_map_range _ _ _ _ hlen]
  have hlab : (preprocessAsset ps).labels.getD t 0 =
      match (pctChange ps).getD t none with
      | some x => if 0 < x then 1 else 0
      | none => 0 := by
    show (outcomes (pctChange ps)).getD t 0 = _
    unfold outcomes
    rw [List.getD_eq_getElem _ _ (by simpa using hlen), List.getElem_map,
      List.getD_eq_getElem _ _ hlen]
  refine ⟨hfeat, ?_, ?_⟩
  · rw [hlab]
    rcases (pctChange ps).getD t none with _ | x
    · left; rfl
    · by_cases hx : 0 < x
      · right; simp [hx]
      · left; simp [hx]
  · rw [hlab]
    rcases (pctChange ps).getD t none with _ | x
    · simp
    · by_cases hx : 0 < x <;> simp [hx]

/-- Witness for claim C2 at the concrete series `prB` and index 2. -/
theorem claim_C2_witness :
    (preprocessAsset prB).features.getD 2 0 =
        (if 2 = 0 then 0 else ((pctChange prB).getD (2 - 1) none).getD 0) ∧
      ((preprocessAsset prB).labels.getD 2 0 = 0 ∨
        (preprocessAsset prB).labels.getD 2 0 = 1) ∧
      ((preprocessAsset prB).labels.getD 2 0 = 1 ↔
        ∃ r, (pctChange prB).getD 2 none = some r ∧ 0 < r) :=
  claim_C2_feature_label_law prB 2 (by decide)

/-! Claim C1. -/

/-- The return realized on date `d` is a function of the closing prices dated
`d - 1` and `d` only. -/
theorem retAt_eq (tab : PriceTable) (t : String) (d : Nat) :
    retAt tab t d =
      if d = 0 then none
      else
        match cellOf tab t (d - 1), cellOf tab t d with
        | some a, some b => some ((b - a) / a)
        | _, _ => none := by
  unfold retAt pctChange
  by_cases hd : d < (seriesOf tab t).length
  · rw [getD_map_range _ _ _ _ hd]
    rfl
  · push_neg at hd
    rw [getD_map_range_ge _ _ _ _ hd]
    have hcell : cellOf tab t d = none := List.getD_eq_default _ _ hd
    by_cases h0 : d = 0
    · simp [h0]
    · rw [if_neg h0, hcell]
      rcases cellOf tab t (d - 1) with _ | a <;> rfl

/-- The per-date body of the prediction walk is unchanged when prices dated
after `d` are altered. -/
theorem predictStep_congr (tab tab' : PriceTable)
    (models : List (String × AssetModel)) (alloc : AllocTable) (d : Nat)
    (hagree : ∀ p ∈ models, ∀ dd, dd ≤ d →
      cellOf tab p.1 dd = cellOf tab' p.1 dd) :
    predictStep tab models alloc d = predictStep tab' models alloc d := by
  induction models generalizing alloc with
  | nil => rfl
  | cons p rest ih =>
    have hret : retAt tab p.1 d = retAt tab' p.1 d := by
      rw [retAt_eq, retAt_eq,
        hagree p (List.mem_cons_self p rest) (d - 1) (Nat.sub_le d 1),
        hagree p (List.mem_cons_self p rest) d (le_refl d)]
    simp only [predictStep, hret]
    cases hr : retAt tab' p.1 d with
    | none => rfl
    | some r =>
      exact ih _ fun q hq dd hdd => hagree q (List.mem_cons_of_mem _ hq) dd hdd

/-- Claim C1: causality of prediction — for a date `d` processed during a
prediction run over a fixed registry, the decisions appended while processing
`d` (the per-date loop body) depend only on closing prices dated at most `d`:
any two tables agreeing on all prices dated at most `d` for the registered
assets yield the same emitted decision block (and the same error outcome) for
`d`. -/
theorem claim_C1_prediction_causality (tab tab' : PriceTable)
    (models : List (String × AssetModel)) (alloc : AllocTable) (s e d : Nat)
    (_hd : d ∈ walkedDates tab s e)
    (hagree : ∀ p ∈ models, ∀ dd, dd ≤ d →
      cellOf tab p.1 dd = cellOf tab' p.1 dd) :
    predictStep tab models alloc d = predictStep tab' models alloc d :=
  predictStep_congr tab tab' models alloc d hagree

/-- Witness for claim C1: altering asset A's closing price on date 2 leaves
the decision block emitted while processing date 1 unchanged. -/
theorem claim_C1_witness :
    predictStep tabP [(tA, mUnit)] (initAllocations [tA, tB]) 1 =
      predictStep tabPalt [(tA, mUnit)] (initAllocations [tA, tB]) 1 :=
  claim_C1_prediction_causality tabP tabPalt [(tA, mUnit)]
    (initAllocations [tA, tB]) 1 2 1 (by decide)
    (by
      intro p hp dd hdd
      rcases List.mem_singleton.mp hp with rfl
      interval_cases dd <;> decide)

/-! Characterization of the prediction walk, for claims C3, C6 and C10. -/

/-- When every registered asset's return on date `d` is defined, the per-date
loop body appends, to each ticker's list, the decisions of the registry
entries keyed by that ticker, in registry order, and raises no error. -/
theorem predictStep_char (tab : PriceTable)
    (models : List (String × AssetModel)) (alloc : AllocTable) (d : Nat)
    (hdef : ∀ p ∈ models, (retAt tab p.1 d).isSome = true) :
    predictStep tab models alloc d =
      (fun t => alloc t ++ ((models.filter fun p => p.1 == t).map
        fun p => decideOne p.2 ((retAt tab p.1 d).getD 0)), none) := by
  induction models generalizing alloc with
  | nil => simp [predictStep]
  | cons p rest ih =>
    obtain ⟨r, hr⟩ := Option.isSome_iff_exists.mp
      (hdef p (List.mem_cons_self p rest))
    simp only [predictStep, hr]
    rw [ih (appendAlloc alloc p.1 (decideOne p.2 r))
      fun q hq => hdef q (List.mem_cons_of_mem _ hq)]
    refine Prod.ext ?_ rfl
    funext t
    by_cases ht : p.1 = t
    · subst ht
      simp [appendAlloc, List.filter_cons, hr, List.append_assoc]
    · simp [appendAlloc, List.filter_cons, beq_iff_eq, ht, Ne.symm ht]

/-- In a duplicate-free registry, filtering by a registered key yields exactly
that entry. -/
theorem filter_key_singleton {α : Type} (l : List (String × α)) (t : String)
    (m : α) (hnd : (l.map Prod.fst).Nodup) (hm : (t, m) ∈ l) :
    (l.filter fun p => p.1 == t) = [(t, m)] := by
  induction l with
  | nil => cases hm
  | cons p rest ih =>
    rw [List.map_cons, List.nodup_cons] at hnd
    rw [List.filter_cons]
    rcases List.mem_cons.mp hm with rfl | hm'
    · rw [show ((t, m).1 == t) = true from beq_iff_eq.mpr rfl, if_pos rfl]
      have hnil : rest.filter (fun p => p.1 == t) = [] := by
        refine List.filter_eq_nil_iff.mpr fun q hq => ?_
        have hmem : q.1 ∈ rest.map Prod.fst := List.mem_map_of_mem Prod.fst hq
        have : q.1 ≠ t := by
          intro h
          rw [h] at hmem
          exact hnd.1 hmem
        simpa using this
      rw [hnil]
    · have hne : p.1 ≠ t := by
        intro h
        have hmem : t ∈ rest.map Prod.fst := List.mem_map_of_mem Prod.fst hm'
        rw [← h] at hmem
        exact hnd.1 hmem
      rw [beq_eq_false_iff_ne.mpr hne]
      exact ih hnd.2 hm'

/-- Flattening singleton blocks is a plain map. -/
theorem flatten_map_singleton {α β : Type} (l : List α) (f : α → β) :
    (l.map fun a => [f a]).flatten = l.map f := by
  induction l with
  | nil => rfl
  | cons a l ih => simp [ih]

/-- Full characterization of the prediction walk over a list of dates, when
every walked return is defined: each ticker's list grows by the per-date
blocks in date order, and no error is raised. -/
theorem predictLoop_char (tab : PriceTable)
    (models : List (String × AssetModel)) (ds : List Nat) (alloc : AllocTable)
    (hdef : ∀ d ∈ ds, ∀ p ∈ models, (retAt tab p.1 d).isSome = true) :
    predictLoop tab models ds alloc =
      (fun t => alloc t ++ (ds.map fun d =>
        (models.filter fun p => p.1 == t).map
          fun p => decideOne p.2 ((retAt tab p.1 d).getD 0)).flatten, none) := by
  induction ds generalizing alloc with
  | nil => simp [predictLoop]
  | cons d ds ih =>
    simp only [predictLoop]
    rw [predictStep_char tab models alloc d
      (hdef d (List.mem_cons_self d ds))]
    show predictLoop tab models ds
        (fun t => alloc t ++ (models.filter fun p => p.1 == t).map
          fun p => decideOne p.2 ((retAt tab p.1 d).getD 0)) = _
    rw [ih _ fun d' hd' => hdef d' (List.mem_cons_of_mem _ hd')]
    refine Prod.ext ?_ rfl
    funext t
    simp [List.append_assoc]

/-! Claim C3. -/

/-- Claim C3 counterexample: over the 5-day table, the request [0, 4] has 5
in-range dates, yet the run aborts on the undefined day-0 return (no
`fillna` on the prediction path) and asset A's allocation sequence is left
with 0 entries, not 4. -/
theorem claim_C3_counterexample :
    ((List.range tabC4.nRows).filter fun d =>
        decide (0 ≤ d) && decide (d ≤ 4)).length = 5
    ∧ (predict_daily_allocations tabC4 [(tA, mUnit)]
        (initAllocations [tA]) 0 4).1 tA = []
    ∧ (predict_daily_allocations tabC4 [(tA, mUnit)]
        (initAllocations [tA]) 0 4).2 = some PredError.nanInput :=
  of_decide_eq_true (by with_unfolding_all rfl)

/-- Claim C3 (amended): for a prediction request whose in-range data contains
N dates, provided the asset has a registered model and the return on every
walked date is defined for every registered asset (the run does not hit the
missing-`fillna` NaN of C4), a single invocation starting from the
constructor's empty lists emits for that asset exactly N-1 entries, each 0 or
1, one per walked date in ascending date order; assets without a registered
model are not covered (see C6). -/
theorem claim_C3_output_length (tab : PriceTable)
    (models : List (String × AssetModel)) (tickers : List String)
    (s e : Nat) (t : String) (m : AssetModel)
    (hnd : (models.map Prod.fst).Nodup)
    (hm : (t, m) ∈ models)
    (hdef : ∀ d ∈ walkedDates tab s e, ∀ p ∈ models,
      (retAt tab p.1 d).isSome = true) :
    (predict_daily_allocations tab models (initAllocations tickers) s e).2 = none
    ∧ (predict_daily_allocations tab models (initAllocations tickers) s e).1 t =
        ((walkedDates tab s e).map fun d => decideOne m ((retAt tab t d).getD 0))
    ∧ ((predict_daily_allocations tab models (initAllocations tickers) s e).1 t).length =
        ((List.range tab.nRows).filter fun d =>
          decide (s ≤ d) && decide (d ≤ e)).length - 1
    ∧ (∀ v ∈ (predict_daily_allocations tab models (initAllocations tickers) s e).1 t,
        v = 0 ∨ v = 1)
    ∧ List.Pairwise (· < ·) (walkedDates tab s e) := by
  have hchar := predictLoop_char tab models (walkedDates tab s e)
    (initAllocations tickers) hdef
  have hfilter := filter_key_singleton models t m hnd hm
  have halloc : (predict_daily_allocations tab models (initAllocations tickers) s e).1 t =
      (walkedDates tab s e).map fun d => decideOne m ((retAt tab t d).getD 0) := by
    show (predictLoop tab models (walkedDates tab s e) (initAllocations tickers)).1 t = _
    rw [hchar]
    show initAllocations tickers t ++ _ = _
    rw [show initAllocations tickers t = [] from rfl, List.nil_append, hfilter]
    simp only [List.map_cons, List.map_nil]
    exact flatten_map_singleton _ _
  refine ⟨?_, halloc, ?_, ?_, ?_⟩
  · show (predictLoop tab models (walkedDates tab s e) (initAllocations tickers)).2 = none
    rw [hchar]
  · rw [halloc, List.length_map]
    exact List.length_dropLast _
  · intro v hv
    rw [halloc] at hv
    obtain ⟨d, _, hd⟩ := List.mem_map.mp hv
    rw [← hd]
    unfold decideOne Classifier.predict
    by_cases h : 0 < m.1.coef * m.2.transform ((retAt tab t d).getD 0) + m.1.intercept
    · right; rw [if_pos h]
    · left; rw [if_neg h]
  · exact ((List.pairwise_lt_range _).filter _).sublist (List.dropLast_sublist _)

/-- Witness for the amended claim C3: over the 5-day table with the request
[1, 4] (4 in-range dates, all walked returns defined), asset A's sequence
gets exactly 3 binary entries in date order. -/
theorem claim_C3_witness :
    (predict_daily_allocations tabC4 [(tA, mUnit)] (initAllocations [tA]) 1 4).2 = none
    ∧ (predict_daily_allocations tabC4 [(tA, mUnit)] (initAllocations [tA]) 1 4).1 tA =
        ((walkedDates tabC4 1 4).map fun d => decideOne mUnit ((retAt tabC4 tA d).getD 0))
    ∧ ((predict_daily_allocations tabC4 [(tA, mUnit)] (initAllocations [tA]) 1 4).1 tA).length =
        ((List.range tabC4.nRows).filter fun d =>
          decide (1 ≤ d) && decide (d ≤ 4)).length - 1
    ∧ (∀ v ∈ (predict_daily_allocations tabC4 [(tA, mUnit)] (initAllocations [tA]) 1 4).1 tA,
        v = 0 ∨ v = 1)
    ∧ List.Pairwise (· < ·) (walkedDates tabC4 1 4) :=
  claim_C3_output_length tabC4 [(tA, mUnit)] [tA] 1 4 tA mUnit
    (of_decide_eq_true (by with_unfolding_all rfl))
    (of_decide_eq_true (by with_unfolding_all rfl))
    (of_decide_eq_true (by with_unfolding_all rfl))

/-! Claim C4. -/

/-- Claim C4, evaluated on the code at the spec's concrete scenario: closes
[100, 101, 99, 99, 102], prediction over the full 5-day range, walking days
0-3.  The values handed to the scaler/model are the raw current-date returns
[undefined, 1/100, -2/101, 0]: the undefined first-day return is NOT replaced
by 0 (no `fillna` on line 107, unlike line 57), sklearn's `predict` rejects
the NaN, and the run aborts having emitted 0 decisions instead of 4. -/
theorem claim_C4_code_evaluation :
    walkedDates tabC4 0 4 = [0, 1, 2, 3]
    ∧ (walkedDates tabC4 0 4).map (retAt tabC4 tA) =
        [none, some (1/100), some (-2/101), some 0]
    ∧ (predict_daily_allocations tabC4 [(tA, mUnit)]
        (initAllocations [tA]) 0 4).2 = some PredError.nanInput
    ∧ (predict_daily_allocations tabC4 [(tA, mUnit)]
        (initAllocations [tA]) 0 4).1 tA = [] :=
  of_decide_eq_true (by with_unfolding_all rfl)

/-! Claim C6. -/

/-- A ticker that keys no registry entry is untouched by the per-date loop
body. -/
theorem predictStep_unregistered (tab : PriceTable)
    (models : List (String × AssetModel)) (alloc : AllocTable) (d : Nat)
    (t : String) (h : ∀ p ∈ models, p.1 ≠ t) :
    (predictStep tab models alloc d).1 t = alloc t := by
  induction models generalizing alloc with
  | nil => rfl
  | cons p rest ih =>
    show (predictStep tab (p :: rest) alloc d).1 t = alloc t
    simp only [predictStep]
    cases hr : retAt tab p.1 d with
    | none => rfl
    | some r =>
      rw [ih _ fun q hq => h q (List.mem_cons_of_mem _ hq)]
      unfold appendAlloc
      rw [if_neg fun he => h p (List.mem_cons_self p rest) he.symm]

/-- A ticker that keys no registry entry is untouched by the whole walk, also
when the walk aborts part-way. -/
theorem predictLoop_unregistered (tab : PriceTable)
    (models : List (String × AssetModel)) (ds : List Nat) (alloc : AllocTable)
    (t : String) (h : ∀ p ∈ models, p.1 ≠ t) :
    (predictLoop tab models ds alloc).1 t = alloc t := by
  induction ds generalizing alloc with
  | nil => rfl
  | cons d ds ih =>
    show (predictLoop tab models (d :: ds) alloc).1 t = alloc t
    simp only [predictLoop]
    cases hs : predictStep tab models alloc d with
    | mk a err =>
      have ha : a t = alloc t := by
        have := predictStep_unregistered tab models alloc d t h
        rw [hs] at this
        exact this
      cases err with
      | none => rw [ih a]; exact ha
      | some e => exact ha

/-- Claim C6 counterexample: with asset B present in the optimizer's tickers
but absent from the registry, the prediction run over [1, 2] raises no error
at all and returns B mapped to its untouched empty list, while emitting a
decision for the registered asset A — no PredictionInputMissing error is
reported for B. -/
theorem claim_C6_counterexample :
    (predict_daily_allocations tabP [(tA, mUnit)] (initAllocations [tA, tB]) 1 2).2 = none
    ∧ (predict_daily_allocations tabP [(tA, mUnit)] (initAllocations [tA, tB]) 1 2).1 tB = []
    ∧ (predict_daily_allocations tabP [(tA, mUnit)] (initAllocations [tA, tB]) 1 2).1 tA = [1] :=
  of_decide_eq_true (by with_unfolding_all rfl)

/-- Claim C6 (amended): an asset absent from the model registry is silently
skipped at prediction time — the loop iterates only registered models, so the
asset's allocation list (initialized empty at construction) is returned
unchanged; no error is reported for it and, true to the second half of the
original claim, no default allocation value is emitted for it. -/
theorem claim_C6_unregistered_silently_skipped (tab : PriceTable)
    (models : List (String × AssetModel)) (alloc : AllocTable) (s e : Nat)
    (t : String) (h : ∀ p ∈ models, p.1 ≠ t) :
    (predict_daily_allocations tab models alloc s e).1 t = alloc t :=
  predictLoop_unregistered tab models (walkedDates tab s e) alloc t h

/-- Witness for the amended claim C6: asset B's list survives the concrete run
unchanged. -/
theorem claim_C6_witness :
    (predict_daily_allocations tabP [(tA, mUnit)] (initAllocations [tA, tB]) 1 2).1 tB =
      initAllocations [tA, tB] tB :=
  claim_C6_unregistered_silently_skipped tabP [(tA, mUnit)]
    (initAllocations [tA, tB]) 1 2 tB
    (of_decide_eq_true (by with_unfolding_all rfl))

/-! Claim C10. -/

/-- Claim C10 counterexample: over the 5-day table, the request [0, 4] has 5
in-range dates, yet each of two successive invocations aborts at the
undefined day-0 return (the missing-`fillna` NaN of C4), so asset A's list is
left with 0 entries after both calls — not the 2 * (5 - 1) = 8 entries the
unconditional claim demands for an N = 5 range. -/
theorem claim_C10_counterexample :
    ((List.range tabC4.nRows).filter fun d =>
        decide (0 ≤ d) && decide (d ≤ 4)).length = 5
    ∧ (predict_daily_allocations tabC4 [(tA, mUnit)]
        (predict_daily_allocations tabC4 [(tA, mUnit)]
          (initAllocations [tA]) 0 4).1 0 4).1 tA = []
    ∧ (predict_daily_allocations tabC4 [(tA, mUnit)]
        (predict_daily_allocations tabC4 [(tA, mUnit)]
          (initAllocations [tA]) 0 4).1 0 4).2 = some PredError.nanInput :=
  of_decide_eq_true (by with_unfolding_all rfl)

/-- Claim C10 (amended): each optimizer starts every requested ticker's
allocation list empty at construction; a prediction invocation appends to the
existing lists without clearing them, so — provided the return on every walked
date is defined for every registered asset, i.e. the run does not hit the
missing-`fillna` NaN abort of C4 — a second invocation over the same range
leaves a registered asset's list with twice `N - 1` entries, where `N` counts
the in-range dates. -/
theorem claim_C10_allocations_accumulate (tab : PriceTable)
    (models : List (String × AssetModel)) (tickers : List String)
    (s e : Nat) (t : String) (m : AssetModel)
    (hnd : (models.map Prod.fst).Nodup) (hm : (t, m) ∈ models)
    (hdef : ∀ d ∈ walkedDates tab s e, ∀ p ∈ models,
      (retAt tab p.1 d).isSome = true) :
    initAllocations tickers t = []
    ∧ (predict_daily_allocations tab models
        (predict_daily_allocations tab models (initAllocations tickers) s e).1 s e).1 t =
      (predict_daily_allocations tab models (initAllocations tickers) s e).1 t ++
        ((walkedDates tab s e).map fun d => decideOne m ((retAt tab t d).getD 0))
    ∧ ((predict_daily_allocations tab models
        (predict_daily_allocations tab models (initAllocations tickers) s e).1 s e).1 t).length =
      2 * (((List.range tab.nRows).filter fun d =>
        decide (s ≤ d) && decide (d ≤ e)).length - 1) := by
  have key : ∀ alloc : AllocTable,
      (predict_daily_allocations tab models alloc s e).1 t =
        alloc t ++ ((walkedDates tab s e).map
          fun d => decideOne m ((retAt tab t d).getD 0)) := by
    intro alloc
    show (predictLoop tab models (walkedDates tab s e) alloc).1 t = _
    rw [predictLoop_char tab models _ alloc hdef]
    show alloc t ++ _ = _
    simp only [filter_key_singleton models t m hnd hm, List.map_cons, List.map_nil]
    rw [flatten_map_singleton]
  have hlen1 : ((walkedDates tab s e).map
      fun d => decideOne m ((retAt tab t d).getD 0)).length =
      ((List.range tab.nRows).filter fun d =>
        decide (s ≤ d) && decide (d ≤ e)).length - 1 := by
    rw [List.length_map]
    exact List.length_dropLast _
  refine ⟨rfl, key _, ?_⟩
  rw [key _, key _]
  show ((initAllocations tickers t ++ _) ++ _).length = _
  rw [show initAllocations tickers t = [] from rfl, List.nil_append,
    List.length_append, hlen1, two_mul]

/-- Witness for claim C10: two successive runs over [1, 4] of the 5-day table
leave asset A's list with 6 = 2 * (4 - 1) entries. -/
theorem claim_C10_witness :
    initAllocations [tA] tA = []
    ∧ (predict_daily_allocations tabC4 [(tA, mUnit)]
        (predict_daily_allocations tabC4 [(tA, mUnit)] (initAllocations [tA]) 1 4).1 1 4).1 tA =
      (predict_daily_allocations tabC4 [(tA, mUnit)] (initAllocations [tA]) 1 4).1 tA ++
        ((walkedDates tabC4 1 4).map fun d => decideOne mUnit ((retAt tabC4 tA d).getD 0))
    ∧ ((predict_daily_allocations tabC4 [(tA, mUnit)]
        (predict_daily_allocations tabC4 [(tA, mUnit)] (initAllocations [tA]) 1 4).1 1 4).1 tA).length =
      2 * (((List.range tabC4.nRows).filter fun d =>
        decide (1 ≤ d) && decide (d ≤ 4)).length - 1) :=
  claim_C10_allocations_accumulate tabC4 [(tA, mUnit)] [tA] 1 4 tA mUnit
    (of_decide_eq_true (by with_unfolding_all rfl))
    (of_decide_eq_true (by with_unfolding_all rfl))
    (of_decide_eq_true (by with_unfolding_all rfl))

/-! Training-side lemmas, for claims C5, C7, C8 and C9. -/

/-- Inversion of a successful per-asset training: the split succeeded, the
scaler is the one fit on the training partition, the classifier was fit on
the training partition scaled through that scaler, and the accuracy is the
holdout score computed through that same scaler and classifier. -/
theorem trainAsset_ok_inv (seed : Nat) (X : List ℚ) (y : List ℕ)
    (fit : AssetFit) (h : trainAsset seed X y = .ok fit) :
    trainTestSplit seed X y = .ok fit.split
    ∧ fit.scaler = fitScaler fit.split.Xtrain
    ∧ fitLogReg (fit.split.Xtrain.map fit.scaler.transform) fit.split.ytrain = .ok fit.clf
    ∧ fit.accuracy = accuracyScore fit.split.ytest
        ((fit.split.Xtest.map fit.scaler.transform).map fit.clf.predict) := by
  unfold trainAsset at h
  cases hsp : trainTestSplit seed X y with
  | error e => rw [hsp] at h; cases h
  | ok sp =>
    rw [hsp] at h
    have h2 : Except.bind
        (fitLogReg (sp.Xtrain.map (fitScaler sp.Xtrain).transform) sp.ytrain)
        (fun clf => Except.ok
          { split := sp, scaler := fitScaler sp.Xtrain, clf := clf,
            accuracy := accuracyScore sp.ytest
              ((sp.Xtest.map (fitScaler sp.Xtrain).transform).map clf.predict) }) =
        Except.ok fit := h
    cases hclf : fitLogReg (sp.Xtrain.map (fitScaler sp.Xtrain).transform) sp.ytrain with
    | error e =>
      rw [hclf] at h2
      simp only [Except.bind] at h2
      exact Except.noConfusion h2
    | ok clf =>
      rw [hclf] at h2
      simp only [Except.bind] at h2
      injection h2 with h3
      subst h3
      exact ⟨rfl, rfl, hclf, rfl⟩

/-- The training loop processes a successful prefix and then continues with
the accumulated effects. -/
theorem trainGo_append (seed : Nat) (tab : PriceTable)
    (pre rest : List String) (acc : TrainEffects)
    (hok : (trainGo seed tab pre acc).error = none) :
    trainGo seed tab (pre ++ rest) acc =
      trainGo seed tab rest (trainGo seed tab pre acc) := by
  induction pre generalizing acc with
  | nil => rfl
  | cons u pre ih =>
    rw [List.cons_append]
    cases hu : trainAsset seed (preprocessAsset (seriesOf tab u)).features
        (preprocessAsset (seriesOf tab u)).labels with
    | error e =>
      exfalso
      have hsome : (trainGo seed tab (u :: pre) acc).error = some e := by
        simp [trainGo, hu]
      rw [hsome] at hok
      cases hok
    | ok fit =>
      have heq : ∀ l : List String, trainGo seed tab (u :: l) acc =
          trainGo seed tab l
            { models := acc.models ++ [(u, (fit.clf, fit.scaler))]
              printed := acc.printed ++ [(u, fit.accuracy)]
              error := none } := by
        intro l
        simp [trainGo, hu]
      rw [heq (pre ++ rest), heq pre]
      rw [heq pre] at hok
      exact ih _ hok

/-- Membership in the printed accuracy lines: every line not already in the
accumulator comes from a successful per-asset training whose holdout accuracy
it reports. -/
theorem trainGo_printed_mem (seed : Nat) (tab : PriceTable)
    (tickers : List String) (acc : TrainEffects) (t : String) (a : ℚ)
    (h : (t, a) ∈ (trainGo seed tab tickers acc).printed) :
    (t, a) ∈ acc.printed ∨ ∃ fit, trainAsset seed
      (preprocessAsset (seriesOf tab t)).features
      (preprocessAsset (seriesOf tab t)).labels = .ok fit ∧ a = fit.accuracy := by
  induction tickers generalizing acc with
  | nil => exact Or.inl h
  | cons u rest ih =>
    revert h
    cases hu : trainAsset seed (preprocessAsset (seriesOf tab u)).features
        (preprocessAsset (seriesOf tab u)).labels with
    | error e =>
      intro h
      left
      simpa [trainGo, hu] using h
    | ok fit =>
      intro h
      have h' := ih
        { models := acc.models ++ [(u, (fit.clf, fit.scaler))]
          printed := acc.printed ++ [(u, fit.accuracy)]
          error := none } (by simpa [trainGo, hu] using h)
      rcases h' with h' | h'
      · rcases List.mem_append.mp h' with h'' | h''
        · exact Or.inl h''
        · have heq := List.mem_singleton.mp h''
          cases heq
          exact Or.inr ⟨fit, hu, rfl⟩
      · exact Or.inr h'

/-- The holdout accuracy always lies in [0, 1]. -/
theorem accuracyScore_mem_unit (yTrue yPred : List ℕ) :
    0 ≤ accuracyScore yTrue yPred ∧ accuracyScore yTrue yPred ≤ 1 := by
  unfold accuracyScore
  constructor
  · apply div_nonneg <;> exact_mod_cast Nat.zero_le _
  · rcases Nat.eq_zero_or_pos yTrue.length with h | h
    · rw [List.length_eq_zero.mp h]
      norm_num
    · rw [div_le_one (by exact_mod_cast h)]
      have hle : ((yTrue.zip yPred).filter fun p => p.1 == p.2).length ≤
          yTrue.length :=
        le_trans (List.length_filter_le _ _)
          (by rw [List.length_zip]; exact min_le_left _ _)
      exact_mod_cast hle

/-! Claim C5. -/

/-- Claim C5 counterexample: tickers [A, B], where only A's training fails
(single-class labels, its column has one observation).  The uncaught sklearn
error aborts the whole pass: B is never trained, the registry and the
accuracy report come back empty, and no per-asset failure report for A is
produced — training of the remaining asset does not complete. -/
theorem claim_C5_counterexample :
    (train_models 42 tabTrain [tA, tB]).models = []
    ∧ (train_models 42 tabTrain [tA, tB]).printed = []
    ∧ (train_models 42 tabTrain [tA, tB]).error = some FitError.singleClass :=
  of_decide_eq_true (by with_unfolding_all rfl)

/-- Claim C5 (amended): a per-asset training failure raises an uncaught
sklearn error that aborts the entire pass at that asset: tickers before it
keep their registry entries and printed accuracies, the failing asset is
excluded, and every ticker after it is left unprocessed; no per-asset failure
report is produced. -/
theorem claim_C5_failure_aborts_pass (seed : Nat) (tab : PriceTable)
    (pre : List String) (t : String) (post : List String) (e : FitError)
    (hok : (train_models seed tab pre).error = none)
    (hfail : trainAsset seed (preprocessAsset (seriesOf tab t)).features
      (preprocessAsset (seriesOf tab t)).labels = .error e) :
    train_models seed tab (pre ++ t :: post) =
      { models := (train_models seed tab pre).models
        printed := (train_models seed tab pre).printed
        error := some e } := by
  unfold train_models
  rw [trainGo_append seed tab pre (t :: post) _ hok]
  simp [trainGo, hfail]

/-- Witness for the amended claim C5: B trains fine, then A's failure aborts
the pass with B's results kept and C unprocessed. -/
theorem claim_C5_witness :
    (train_models 42 tabTrain [tB]).error = none
    ∧ train_models 42 tabTrain ([tB] ++ tA :: [tC]) =
      { models := (train_models 42 tabTrain [tB]).models
        printed := (train_models 42 tabTrain [tB]).printed
        error := some FitError.singleClass } :=
  ⟨of_decide_eq_true (by with_unfolding_all rfl),
    claim_C5_failure_aborts_pass 42 tabTrain [tB] tA [tC] FitError.singleClass
      (of_decide_eq_true (by with_unfolding_all rfl))
      (of_decide_eq_true (by with_unfolding_all rfl))⟩

/-! Claim C7. -/

/-- Claim C7 counterexample: two training runs whose holdout accuracies differ
(1 versus 0, visible only in the printed console lines) hand the caller the
very same return value — `train_models` is annotated `-> None` and returns
None on every call, so the accuracy is not part of its result value. -/
theorem claim_C7_counterexample :
    train_models_return 42 tabAcc1 [tA] = train_models_return 42 tabAcc2 [tA]
    ∧ (train_models 42 tabAcc1 [tA]).printed = [(tA, 1)]
    ∧ (train_models 42 tabAcc2 [tA]).printed = [(tA, 0)] :=
  ⟨rfl, of_decide_eq_true (by with_unfolding_all rfl),
    of_decide_eq_true (by with_unfolding_all rfl)⟩

/-- Claim C7 (amended): for every asset trained, the operation computes the
holdout classification accuracy — a value in [0, 1] coming from that asset's
successful per-asset fit — but emits it only as a console print line; the
function's return value is None and carries no accuracy mapping. -/
theorem claim_C7_accuracy_only_printed (seed : Nat) (tab : PriceTable)
    (tickers : List String) (t : String) (a : ℚ)
    (h : (t, a) ∈ (train_models seed tab tickers).printed) :
    train_models_return seed tab tickers = ()
    ∧ 0 ≤ a ∧ a ≤ 1
    ∧ ∃ fit, trainAsset seed (preprocessAsset (seriesOf tab t)).features
        (preprocessAsset (seriesOf tab t)).labels = .ok fit ∧ a = fit.accuracy := by
  rcases trainGo_printed_mem seed tab tickers _ t a h with h' | h'
  · cases h'
  · obtain ⟨fit, hfit, rfl⟩ := h'
    obtain ⟨-, -, -, hacc⟩ := trainAsset_ok_inv seed _ _ fit hfit
    rw [hacc]
    obtain ⟨h0, h1⟩ := accuracyScore_mem_unit fit.split.ytest
      ((fit.split.Xtest.map fit.scaler.transform).map fit.clf.predict)
    exact ⟨rfl, h0, h1, fit, hfit, hacc.symm⟩

/-- Witness for the amended claim C7 at asset A of the accuracy-1 table. -/
theorem claim_C7_witness :
    train_models_return 42 tabAcc1 [tA] = ()
    ∧ (0 : ℚ) ≤ 1 ∧ (1 : ℚ) ≤ 1
    ∧ ∃ fit, trainAsset 42 (preprocessAsset (seriesOf tabAcc1 tA)).features
        (preprocessAsset (seriesOf tabAcc1 tA)).labels = .ok fit ∧
        (1 : ℚ) = fit.accuracy :=
  claim_C7_accuracy_only_printed 42 tabAcc1 [tA] tA 1
    (by with_unfolding_all exact List.mem_singleton.mpr rfl)

/-! Claim C8. -/

/-- Claim C8: the normalizer's statistics are computed from the asset's
training feature partition alone (`scaler = fitScaler Xtrain`); the identical
statistics transform the holdout features inside the accuracy evaluation; the
registry stores that same scaler verbatim; and every inference-time decision
for the asset pushes the feature through that stored scaler's transform — the
normalizer is never refit. -/
theorem claim_C8_normalizer_train_only (seed : Nat) (tab : PriceTable)
    (t : String) (fit : AssetFit)
    (h : trainAsset seed (preprocessAsset (seriesOf tab t)).features
      (preprocessAsset (seriesOf tab t)).labels = .ok fit) :
    fit.scaler = fitScaler fit.split.Xtrain
    ∧ fit.accuracy = accuracyScore fit.split.ytest
        ((fit.split.Xtest.map fit.scaler.transform).map fit.clf.predict)
    ∧ (train_models seed tab [t]).models = [(t, (fit.clf, fit.scaler))]
    ∧ ∀ r : ℚ, decideOne (fit.clf, fit.scaler) r =
        fit.clf.predict (fit.scaler.transform r) := by
  obtain ⟨-, hsc, -, hacc⟩ := trainAsset_ok_inv seed _ _ fit h
  refine ⟨hsc, hacc, ?_, fun r => rfl⟩
  show (trainGo seed tab [t] { models := [], printed := [], error := none }).models = _
  simp [trainGo, h]

/-- Witness for claim C8 at asset B of the three-asset table, whose fit is
`fitB`. -/
theorem claim_C8_witness :
    fitB.scaler = fitScaler fitB.split.Xtrain
    ∧ fitB.accuracy = accuracyScore fitB.split.ytest
        ((fitB.split.Xtest.map fitB.scaler.transform).map fitB.clf.predict)
    ∧ (train_models 42 tabTrain [tB]).models = [(tB, (fitB.clf, fitB.scaler))]
    ∧ ∀ r : ℚ, decideOne (fitB.clf, fitB.scaler) r =
        fitB.clf.predict (fitB.scaler.transform r) :=
  claim_C8_normalizer_train_only 42 tabTrain tB fitB
    (by with_unfolding_all rfl)

/-! Claim C9. -/

/-- Claim C9: training the same asset twice on the same feature/label series
with the same seed yields the identical train/holdout split indices, the
identical normalizer parameters and the identical classifier parameters —
the split, the normalizer fit and the classifier fit are deterministic
functions of the seed and the input series. -/
theorem claim_C9_training_reproducible (seed : Nat) (X : List ℚ) (y : List ℕ)
    (fit1 fit2 : AssetFit)
    (h1 : trainAsset seed X y = .ok fit1)
    (h2 : trainAsset seed X y = .ok fit2) :
    fit1.split.trainIdx = fit2.split.trainIdx
    ∧ fit1.split.testIdx = fit2.split.testIdx
    ∧ fit1.scaler = fit2.scaler
    ∧ fit1.clf = fit2.clf := by
  have h := h1.symm.trans h2
  injection h with h3
  subst h3
  exact ⟨rfl, rfl, rfl, rfl⟩

/-- Witness for claim C9: two runs on column `prB` both produce `fitB`. -/
theorem claim_C9_witness :
    fitB.split.trainIdx = fitB.split.trainIdx
    ∧ fitB.split.testIdx = fitB.split.testIdx
    ∧ fitB.scaler = fitB.scaler
    ∧ fitB.clf = fitB.clf :=
  claim_C9_training_reproducible 42 (preprocessAsset prB).features
    (preprocessAsset prB).labels fitB fitB
    (by with_unfolding_all rfl)
    (by with_unfolding_all rfl)

end LR
